import Mathlib

/-!
Verification of the per-key usage-heatmap lighting effect
(`src/src/fx/heatmap.c`).

The C source is shallowly embedded below:
- `fx_heatmap_on_key_press` models the event handler (lines 38-70):
  the external position→pixel resolver `zmk_rgb_fx_get_pixel_by_key_position`
  is a function parameter, the device state (`key_counts`, `is_active`) is a
  `HeatmapState`, and the result carries the C return code together with the
  new state and the number of frames requested via `zmk_rgb_fx_request_frames`.
- `fx_heatmap_render_frame` models the renderer (lines 72-121): the pixel
  buffer is a total function `Nat → RGB` so that writes past the end of the
  buffer stay observable; `num_pixels` is an argument the C code never reads.
- `key_counts` entries are `uint32_t`, so the increment wraps modulo 2^32.
- Hue arithmetic (lines 94-107) is over `Int` with explicit `% 65536` where
  the C code converts the signed intermediate sum to `uint16_t`; the two
  normalization `while` loops on a `uint16_t` amount to `% 360` on a
  non-negative value below 65536 (the `hue < 0` loop can never run).
  The `(int16_t)` cast of `hue_delta * usage` truncates toward zero
  (`truncQ`); `float` arithmetic is idealized as exact rational arithmetic.
- `zmk_hsl_to_rgb` and `zmk_apply_blending_mode` are repository code that is
  not under `src/`; they are modelled from the spec (standard HSL→RGB, and
  the spec's example blend modes: replace, additive, multiplicative) with
  RGB channels as rationals in [0, 1].
-/

/- Batteries marks the rational operations irreducible, which blocks
elaboration-time evaluation of concrete instances; restore the default so
that `decide` can evaluate the embedded arithmetic on concrete inputs. -/
attribute [local semireducible] Rat.mul Rat.add Rat.inv Rat.sub

namespace ZmkRgbFx

/-- An event delivered by the multiplexed event bus: either a key
position-state-changed event (with its position and pressed/released state),
or some other event kind `as_zmk_position_state_changed` rejects. -/
inductive ZmkEvent where
  | position (pos : Nat) (pressed : Bool)
  | other
  deriving DecidableEq

/-- The C return codes of `fx_heatmap_on_key_press`:
`0`, `-ENOTSUP`, `-EINVAL`. -/
inductive KeyPressResult where
  | ok
  | enotsup
  | einval
  deriving DecidableEq

/-- The mutable device data `struct fx_heatmap_data`: per-slot press
counters and the active flag. -/
structure HeatmapState where
  keyCounts : List Nat
  isActive : Bool
  deriving DecidableEq

/-- `uint32_t` wraps modulo 2^32. -/
def UINT32_MOD : Nat := 4294967296

/-- Embedding of `fx_heatmap_on_key_press` (heatmap.c lines 38-70).
`resolvePixel` stands for the external
`zmk_rgb_fx_get_pixel_by_key_position`; `pixelMapSize` is
`config->pixel_map_size`.  Returns the status code, the new state, and how
many frames were requested from the scheduler. -/
def fx_heatmap_on_key_press (resolvePixel : Nat → Nat) (pixelMapSize : Nat)
    (s : HeatmapState) (e : ZmkEvent) : KeyPressResult × HeatmapState × Nat :=
  if s.isActive = false then
    (.ok, s, 0)
  else
    match e with
    | .other => (.enotsup, s, 0)
    | .position pos pressed =>
      if pressed = false then
        (.ok, s, 0)
      else
        let pixelIdx := resolvePixel pos
        if pixelMapSize ≤ pixelIdx then
          (.einval, s, 0)
        else
          (.ok,
           { s with keyCounts :=
              s.keyCounts.set pixelIdx ((s.keyCounts.getD pixelIdx 0 + 1) % UINT32_MOD) },
           1)

/-- Embedding of `fx_heatmap_start` (lines 123-128): sets the active flag
and requests one frame. -/
def fx_heatmap_start (s : HeatmapState) : HeatmapState × Nat :=
  ({ s with isActive := true }, 1)

/-- Embedding of `fx_heatmap_stop` (lines 130-134): clears the active flag
and requests no frame. -/
def fx_heatmap_stop (s : HeatmapState) : HeatmapState × Nat :=
  ({ s with isActive := false }, 0)

/-- Embedding of the max-count scan (lines 80-85): fold of the loop body
`if (key_counts[i] > max_count) max_count = key_counts[i]` starting from 1. -/
def maxCount (counts : List Nat) : Nat :=
  counts.foldl (fun m c => if m < c then c else m) 1

/-- The per-slot usage ratio `(float)key_counts[i] / (float)max_count`
(line 90), idealized as a rational. -/
def slotUsage (counts : List Nat) (i : Nat) : ℚ :=
  ((counts.getD i 0 : ℚ)) / ((maxCount counts : ℚ))

/-- The adjusted hue delta (lines 94-101): `hot - cold`, minus 360 when
above 180, plus 360 when below -180. -/
def hueDelta (cold hot : ℤ) : ℤ :=
  if 180 < hot - cold then hot - cold - 360
  else if hot - cold < -180 then hot - cold + 360
  else hot - cold

/-- The C `(int16_t)` cast of a `float`: truncation toward zero. -/
def truncQ (q : ℚ) : ℤ :=
  if q < 0 then -((-q).floor) else q.floor

/-- Spec's example blend modes (the enumerated `blending_mode`). -/
inductive BlendingMode where
  | replace
  | additive
  | multiplicative
  deriving DecidableEq

/-- `struct zmk_color_rgb` with each channel in [0, 1], floats idealized as
rationals. -/
structure RGB where
  r : ℚ
  g : ℚ
  b : ℚ
  deriving DecidableEq

/-- Rational minimum as a plain conditional, kept executable. -/
def minQ (a b : ℚ) : ℚ := if a ≤ b then a else b

/-- The immutable `struct fx_heatmap_config`. -/
structure FxHeatmapConfig where
  pixelMap : List Nat
  blendingMode : BlendingMode
  colorColdHue : Nat
  colorHotHue : Nat
  saturation : Nat
  lightness : Nat

/-- Modelled from the spec: `zmk_apply_blending_mode` is repository code not
under `src/`; the spec defines a blend mode as "a rule for combining a newly
computed color with a color already present in the frame buffer (e.g.,
replace, additive, multiplicative)".  The existing value is the left
operand, the computed color the right operand. -/
def zmk_apply_blending_mode (a b : RGB) : BlendingMode → RGB
  | .replace => b
  | .additive => ⟨minQ 1 (a.r + b.r), minQ 1 (a.g + b.g), minQ 1 (a.b + b.b)⟩
  | .multiplicative => ⟨a.r * b.r, a.g * b.g, a.b * b.b⟩

/-- Rational absolute value as a plain conditional, kept executable. -/
def absQ (q : ℚ) : ℚ := if q < 0 then -q else q

/-- Modelled from the spec: `zmk_hsl_to_rgb` is repository code not under
`src/`; the spec requires converting "a hue/saturation/lightness triple to a
red/green/blue triple", taken here as the standard HSL→RGB conversion
(hue in degrees, saturation and lightness as percentages). -/
def zmk_hsl_to_rgb (h : ℤ) (s l : Nat) : RGB :=
  let S : ℚ := (s : ℚ) / 100
  let L : ℚ := (l : ℚ) / 100
  let C : ℚ := (1 - absQ (2 * L - 1)) * S
  let hp : ℚ := (h : ℚ) / 60
  let X : ℚ := C * (1 - absQ (hp - 2 * (((hp / 2).floor : ℤ) : ℚ) - 1))
  let m : ℚ := L - C / 2
  let sector : ℤ := hp.floor
  if sector = 0 then ⟨C + m, X + m, m⟩
  else if sector = 1 then ⟨X + m, C + m, m⟩
  else if sector = 2 then ⟨m, C + m, X + m⟩
  else if sector = 3 then ⟨m, X + m, C + m⟩
  else if sector = 4 then ⟨X + m, m, C + m⟩
  else ⟨C + m, m, X + m⟩

/-- The hue computed for slot `i` (lines 94-107).  The conversion of the
signed sum `cold + (int16_t)(hue_delta * usage)` to `uint16_t` is `% 65536`;
the `while (hue >= 360) hue -= 360` loop on the resulting non-negative value
below 65536 is `% 360`, and the `while (hue < 0)` loop never runs because
`hue` is unsigned. -/
def slotHue (cfg : FxHeatmapConfig) (counts : List Nat) (i : Nat) : ℤ :=
  let d := hueDelta (cfg.colorColdHue : ℤ) (cfg.colorHotHue : ℤ)
  let t := truncQ ((d : ℚ) * slotUsage counts i)
  (((cfg.colorColdHue : ℤ) + t) % 65536) % 360

/-- The RGB color computed for slot `i` (lines 109-116). -/
def slotColor (cfg : FxHeatmapConfig) (counts : List Nat) (i : Nat) : RGB :=
  zmk_hsl_to_rgb (slotHue cfg counts i) cfg.saturation cfg.lightness

/-- Pointwise update of the pixel memory: the array write
`pixels[p].value = v`. -/
def updateFn (f : Nat → RGB) (p : Nat) (v : RGB) : Nat → RGB :=
  fun q => if q = p then v else f q

/-- One iteration of the render loop body for slot `i`
(lines 88-120): blend the slot's color into `pixels[pixel_map[i]]`. -/
def renderStep (cfg : FxHeatmapConfig) (counts : List Nat)
    (mem : Nat → RGB) (i : Nat) : Nat → RGB :=
  updateFn mem (cfg.pixelMap.getD i 0)
    (zmk_apply_blending_mode (mem (cfg.pixelMap.getD i 0)) (slotColor cfg counts i)
      cfg.blendingMode)

/-- The render loop run over an explicit list of slot indices. -/
def renderSlots (cfg : FxHeatmapConfig) (counts : List Nat)
    (l : List Nat) (mem : Nat → RGB) : Nat → RGB :=
  l.foldl (renderStep cfg counts) mem

/-- Embedding of `fx_heatmap_render_frame` (lines 72-121): iterate the loop
body over slots `0 .. pixel_map_size - 1`.  `numPixels` models the
`num_pixels` argument, which the C function receives but never reads. -/
def fx_heatmap_render_frame (cfg : FxHeatmapConfig) (counts : List Nat)
    (mem : Nat → RGB) (numPixels : Nat) : Nat → RGB :=
  renderSlots cfg counts (List.range cfg.pixelMap.length) mem

/-! ## Theorems -/

/-- C2: the hue delta is `hot_hue - cold_hue`, minus 360 when above 180 and
plus 360 when below -180; for hues in [0, 360) the adjusted delta lies in
[-180, 180] and still reaches `hot_hue` modulo 360 (the shorter arc), and
concretely cold=350, hot=10 gives +20 while cold=10, hot=350 gives -20. -/
theorem hueDelta_shorter_arc (cold hot : ℤ)
    (h1 : 0 ≤ cold) (h2 : cold < 360) (h3 : 0 ≤ hot) (h4 : hot < 360) :
    (-180 ≤ hueDelta cold hot ∧ hueDelta cold hot ≤ 180 ∧
      (cold + hueDelta cold hot) % 360 = hot) ∧
    hueDelta 350 10 = 20 ∧ hueDelta 10 350 = -20 := by
  refine ⟨?_, by decide, by decide⟩
  unfold hueDelta
  split_ifs <;> omega

/-- Witness for C2 at cold=350, hot=10. -/
theorem hueDelta_shorter_arc_witness :
    (-180 ≤ hueDelta 350 10 ∧ hueDelta 350 10 ≤ 180 ∧
      ((350 : ℤ) + hueDelta 350 10) % 360 = 10) ∧
    hueDelta 350 10 = 20 ∧ hueDelta 10 350 = -20 :=
  hueDelta_shorter_arc 350 10 (by decide) (by decide) (by decide) (by decide)

/-- C1 (code bug): with cold_hue=10, hot_hue=350 and a single slot at
maximal usage (count 1, max_count 1, usage 1), the adjusted delta is -20
and the intermediate sum 10 - 20 = -10 is negative; the claimed
normalization would give (10 - 20) mod 360 = 350, but the code stores the
sum in a `uint16_t` (wrapping to 65526) and its `while (hue < 0)` loop can
never run, so the rendered hue is 65526 mod 360 = 6. -/
theorem slotHue_negative_wrap_bug :
    slotHue ⟨[0], .replace, 10, 350, 100, 50⟩ [1] 0 = 6 ∧
    ((10 : ℤ) + truncQ ((-20 : ℤ) * (1 : ℚ))) % 360 = 350 ∧
    hueDelta 10 350 = -20 ∧ slotUsage [1] 0 = 1 := by
  refine ⟨by decide, by decide, by decide, by decide⟩

/-- C3: while active, a press event whose resolved pixel index is out of
range for the pixel map returns `-EINVAL` and leaves the whole state (in
particular every usage counter) unchanged, requesting no frame. -/
theorem on_key_press_invalid_index (resolvePixel : Nat → Nat) (n : Nat)
    (s : HeatmapState) (pos : Nat)
    (hact : s.isActive = true) (hidx : n ≤ resolvePixel pos) :
    fx_heatmap_on_key_press resolvePixel n s (.position pos true) =
      (.einval, s, 0) := by
  unfold fx_heatmap_on_key_press
  simp [hact, hidx]

/-- Witness for C3: resolver returns 5, pixel map has size 1. -/
theorem on_key_press_invalid_index_witness :
    fx_heatmap_on_key_press (fun _ => 5) 1 ⟨[7], true⟩ (.position 0 true) =
      (.einval, ⟨[7], true⟩, 0) :=
  on_key_press_invalid_index (fun _ => 5) 1 ⟨[7], true⟩ 0 rfl (by decide)

/-- C4 counterexample: while inactive, a non-key-position event does NOT
return the unsupported-event error; the active-flag check runs first and
the handler returns success. -/
theorem on_key_press_unsupported_counterexample :
    (fx_heatmap_on_key_press id 1 ⟨[0], false⟩ .other).1 = .ok ∧
    (fx_heatmap_on_key_press id 1 ⟨[0], false⟩ .other).1 ≠ .enotsup := by
  refine ⟨by decide, by decide⟩

/-- C4 (amended): while ACTIVE, an event that is not a key-position event
returns `-ENOTSUP` and performs no mutation of the state. -/
theorem on_key_press_unsupported_when_active (resolvePixel : Nat → Nat)
    (n : Nat) (s : HeatmapState) (hact : s.isActive = true) :
    fx_heatmap_on_key_press resolvePixel n s .other = (.enotsup, s, 0) := by
  unfold fx_heatmap_on_key_press
  simp [hact]

/-- Witness for the amended C4. -/
theorem on_key_press_unsupported_when_active_witness :
    fx_heatmap_on_key_press id 1 ⟨[0], true⟩ .other = (.enotsup, ⟨[0], true⟩, 0) :=
  on_key_press_unsupported_when_active id 1 ⟨[0], true⟩ rfl

/-- C5: usage counters change only for an in-range press while active, in
which case exactly the entry at the resolved index is bumped by one
(modulo the `uint32_t` wrap, hence by exactly 1 whenever the counter has
not saturated) and the call succeeds; releases always succeed without
mutation, every event while inactive succeeds without mutation, and any
call that changes the counters was an in-range press while active. -/
theorem on_key_press_counter_mutation (resolvePixel : Nat → Nat) (n : Nat)
    (s : HeatmapState) (hlen : s.keyCounts.length = n) :
    (∀ pos, s.isActive = true → resolvePixel pos < n →
      (fx_heatmap_on_key_press resolvePixel n s (.position pos true)).1 = .ok ∧
      (fx_heatmap_on_key_press resolvePixel n s (.position pos true)).2.1.keyCounts =
        s.keyCounts.set (resolvePixel pos)
          ((s.keyCounts.getD (resolvePixel pos) 0 + 1) % UINT32_MOD) ∧
      (s.keyCounts.getD (resolvePixel pos) 0 + 1 < UINT32_MOD →
        (fx_heatmap_on_key_press resolvePixel n s
            (.position pos true)).2.1.keyCounts.getD (resolvePixel pos) 0 =
          s.keyCounts.getD (resolvePixel pos) 0 + 1) ∧
      (∀ j, j ≠ resolvePixel pos →
        (fx_heatmap_on_key_press resolvePixel n s
            (.position pos true)).2.1.keyCounts.getD j 0 =
          s.keyCounts.getD j 0)) ∧
    (∀ pos, (fx_heatmap_on_key_press resolvePixel n s (.position pos false)).1 = .ok ∧
      (fx_heatmap_on_key_press resolvePixel n s (.position pos false)).2.1 = s) ∧
    (∀ e, s.isActive = false →
      fx_heatmap_on_key_press resolvePixel n s e = (.ok, s, 0)) ∧
    (∀ e, (fx_heatmap_on_key_press resolvePixel n s e).2.1.keyCounts ≠ s.keyCounts →
      s.isActive = true ∧ ∃ pos, e = .position pos true ∧ resolvePixel pos < n) := by
  refine ⟨?_, ?_, ?_, ?_⟩
  · intro pos hact hlt
    have hnot : ¬ n ≤ resolvePixel pos := Nat.not_le.mpr hlt
    refine ⟨?_, ?_, ?_, ?_⟩
    · unfold fx_heatmap_on_key_press; simp [hact, hnot]
    · unfold fx_heatmap_on_key_press; simp [hact, hnot]
    · intro hnowrap
      unfold fx_heatmap_on_key_press
      simp only [hact, hnot]
      simp only [Bool.true_eq_false, if_false, if_true, reduceIte]
      rw [List.getD_eq_getElem?_getD, List.getElem?_set_self]
      · simp only [Option.getD_some]
        exact Nat.mod_eq_of_lt hnowrap
      · omega
    · intro j hj
      unfold fx_heatmap_on_key_press
      simp only [hact, hnot]
      simp only [Bool.true_eq_false, if_false, if_true, reduceIte]
      rw [List.getD_eq_getElem?_getD, List.getElem?_set_ne (fun h => hj h.symm),
        List.getD_eq_getElem?_getD]
  · intro pos
    unfold fx_heatmap_on_key_press
    by_cases hact : s.isActive = false <;> simp [hact]
  · intro e hinact
    unfold fx_heatmap_on_key_press
    simp [hinact]
  · intro e hne
    by_cases hact : s.isActive = false
    · exfalso; apply hne; unfold fx_heatmap_on_key_press; simp [hact]
    · have hact' : s.isActive = true := by
        revert hact; cases s.isActive <;> simp
      refine ⟨hact', ?_⟩
      cases e with
      | other =>
        exfalso; apply hne; unfold fx_heatmap_on_key_press; simp [hact']
      | position pos pressed =>
        cases pressed with
        | false =>
          exfalso; apply hne; unfold fx_heatmap_on_key_press; simp [hact']
        | true =>
          refine ⟨pos, rfl, ?_⟩
          by_contra hge
          apply hne
          unfold fx_heatmap_on_key_press
          simp [hact', Nat.le_of_not_lt hge]

/-- Witness for C5: two slots, active, press on slot 1. -/
theorem on_key_press_counter_mutation_witness :
    (fx_heatmap_on_key_press id 2 ⟨[0, 0], true⟩ (.position 1 true)).2.1.keyCounts = [0, 1] := by
  have h := (on_key_press_counter_mutation id 2 ⟨[0, 0], true⟩ (by decide)).1 1 rfl (by decide)
  rw [h.2.1]
  decide

/-- C7: `start` sets the active flag and requests exactly one frame;
`stop` clears the active flag and requests none; neither touches the usage
counters. -/
theorem start_stop_behavior (s : HeatmapState) :
    (fx_heatmap_start s).1.isActive = true ∧
    (fx_heatmap_start s).1.keyCounts = s.keyCounts ∧
    (fx_heatmap_start s).2 = 1 ∧
    (fx_heatmap_stop s).1.isActive = false ∧
    (fx_heatmap_stop s).1.keyCounts = s.keyCounts ∧
    (fx_heatmap_stop s).2 = 0 :=
  ⟨rfl, rfl, rfl, rfl, rfl, rfl⟩

/-- C10: while the active flag is false the handler returns success for
every event whatsoever, because the active check precedes the event-kind
check; consequently the unsupported-event error can only be reported while
active. -/
theorem on_key_press_inactive_always_ok (resolvePixel : Nat → Nat) (n : Nat)
    (s : HeatmapState) :
    (s.isActive = false →
      ∀ e, fx_heatmap_on_key_press resolvePixel n s e = (.ok, s, 0)) ∧
    (∀ e, (fx_heatmap_on_key_press resolvePixel n s e).1 = .enotsup →
      s.isActive = true) := by
  constructor
  · intro hinact e
    unfold fx_heatmap_on_key_press
    simp [hinact]
  · intro e hres
    by_contra hact
    have hinact : s.isActive = false := by
      revert hact; cases s.isActive <;> simp
    revert hres
    unfold fx_heatmap_on_key_press
    simp [hinact]

/-- Witness for C10: inactive state swallows a non-key-position event. -/
theorem on_key_press_inactive_always_ok_witness :
    fx_heatmap_on_key_press id 1 ⟨[3], false⟩ .other = (.ok, ⟨[3], false⟩, 0) :=
  (on_key_press_inactive_always_ok id 1 ⟨[3], false⟩).1 rfl .other

/-- The max-count loop starting from accumulator `a` computes the maximum
of `a` and all list entries. -/
lemma foldl_max_eq (l : List Nat) : ∀ a : Nat,
    l.foldl (fun m c => if m < c then c else m) a = max a (l.foldr max 0) := by
  induction l with
  | nil => intro a; simp
  | cons c cs ih =>
    intro a
    simp only [List.foldl_cons, List.foldr_cons]
    rw [ih]
    have hmax : (if a < c then c else a) = max a c := by
      rcases Nat.lt_or_ge a c with h | h
      · rw [if_pos h, Nat.max_eq_right (Nat.le_of_lt h)]
      · rw [if_neg (Nat.not_lt.mpr h), Nat.max_eq_left h]
    rw [hmax, ← Nat.max_assoc]

/-- Every list entry is bounded by the fold of `max`. -/
lemma le_foldr_max (l : List Nat) (x : Nat) (hx : x ∈ l) : x ≤ l.foldr max 0 := by
  induction l with
  | nil => cases hx
  | cons c cs ih =>
    simp only [List.foldr_cons]
    rcases List.mem_cons.mp hx with rfl | h
    · exact Nat.le_max_left _ _
    · exact Nat.le_trans (ih h) (Nat.le_max_right _ _)

/-- A `getD` read at an in-range index is a list member. -/
lemma getD_mem_of_lt (l : List Nat) (i : Nat) (hi : i < l.length) :
    l.getD i 0 ∈ l := by
  rw [List.getD_eq_getElem?_getD, List.getElem?_eq_getElem hi]
  exact List.getElem_mem hi

/-- C6: the scan computes `max(1, max(UsageCounts))`, so `max_count ≥ 1`
holds before any division and bounds every counter, making each usage
ratio well defined and confined to [0, 1]. -/
theorem max_count_floor (counts : List Nat) :
    maxCount counts = max 1 (counts.foldr max 0) ∧
    1 ≤ maxCount counts ∧
    ∀ i, i < counts.length →
      counts.getD i 0 ≤ maxCount counts ∧
      0 ≤ slotUsage counts i ∧ slotUsage counts i ≤ 1 := by
  have heq : maxCount counts = max 1 (counts.foldr max 0) := foldl_max_eq counts 1
  have h1 : 1 ≤ maxCount counts := by rw [heq]; exact Nat.le_max_left 1 _
  refine ⟨heq, h1, ?_⟩
  intro i hi
  have hle : counts.getD i 0 ≤ maxCount counts := by
    rw [heq]
    exact Nat.le_trans (le_foldr_max counts _ (getD_mem_of_lt counts i hi))
      (Nat.le_max_right 1 _)
  have hpos : (0 : ℚ) < (maxCount counts : ℚ) := by exact_mod_cast h1
  refine ⟨hle, ?_, ?_⟩
  · exact div_nonneg (Nat.cast_nonneg _) (Nat.cast_nonneg _)
  · rw [slotUsage, div_le_one hpos]
    exact_mod_cast hle

/-- Witness for C6 at counts [0, 5], slot 1. -/
theorem max_count_floor_witness : slotUsage [0, 5] 1 ≤ 1 :=
  ((max_count_floor [0, 5]).2.2 1 (by decide)).2.2

/-- Positions the render loop never writes keep their previous value. -/
lemma renderSlots_untouched (cfg : FxHeatmapConfig) (counts : List Nat)
    (l : List Nat) (mem : Nat → RGB) (q : Nat)
    (hq : ∀ i ∈ l, cfg.pixelMap.getD i 0 ≠ q) :
    renderSlots cfg counts l mem q = mem q := by
  induction l generalizing mem with
  | nil => rfl
  | cons i t ih =>
    show renderSlots cfg counts t (renderStep cfg counts mem i) q = mem q
    rw [ih (renderStep cfg counts mem i) (fun j hj => hq j (List.mem_cons_of_mem _ hj))]
    unfold renderStep updateFn
    exact if_neg (fun h => hq i (List.mem_cons_self i t) h.symm)

/-- Under replace blending the written value does not depend on the
previous buffer contents, so the loop's output agrees on any two buffers
that coincide outside the written positions. -/
lemma renderSlots_replace_congr (cfg : FxHeatmapConfig) (counts : List Nat)
    (hmode : cfg.blendingMode = .replace) (l : List Nat) :
    ∀ mem1 mem2 : Nat → RGB,
      (∀ q, (∀ i ∈ l, cfg.pixelMap.getD i 0 ≠ q) → mem1 q = mem2 q) →
      renderSlots cfg counts l mem1 = renderSlots cfg counts l mem2 := by
  induction l with
  | nil =>
    intro mem1 mem2 h
    funext q
    exact h q (by simp)
  | cons i t ih =>
    intro mem1 mem2 h
    show renderSlots cfg counts t (renderStep cfg counts mem1 i) =
      renderSlots cfg counts t (renderStep cfg counts mem2 i)
    apply ih
    intro q hq
    unfold renderStep updateFn
    by_cases hqi : q = cfg.pixelMap.getD i 0
    · rw [if_pos hqi, if_pos hqi, hmode]
      rfl
    · rw [if_neg hqi, if_neg hqi]
      apply h
      intro j hj
      rcases List.mem_cons.mp hj with rfl | hjt
      · exact fun hc => hqi hc.symm
      · exact hq j hjt

/-- C8 (amended): with the replace blend mode, rendering twice with
unchanged counters leaves the buffer exactly as rendering once; for the
compounding modes (additive, multiplicative) this fails, see the
counterexample. -/
theorem render_frame_idempotent_replace (cfg : FxHeatmapConfig)
    (counts : List Nat) (mem : Nat → RGB) (numPixels : Nat)
    (hmode : cfg.blendingMode = .replace) :
    fx_heatmap_render_frame cfg counts
      (fx_heatmap_render_frame cfg counts mem numPixels) numPixels =
    fx_heatmap_render_frame cfg counts mem numPixels := by
  unfold fx_heatmap_render_frame
  apply renderSlots_replace_congr cfg counts hmode
  intro q hq
  exact renderSlots_untouched cfg counts _ mem q hq

/-- Witness for the amended C8. -/
theorem render_frame_idempotent_replace_witness :
    fx_heatmap_render_frame ⟨[0], .replace, 0, 120, 100, 50⟩ [0]
      (fx_heatmap_render_frame ⟨[0], .replace, 0, 120, 100, 50⟩ [0]
        (fun _ => ⟨0, 0, 0⟩) 1) 1 =
    fx_heatmap_render_frame ⟨[0], .replace, 0, 120, 100, 50⟩ [0]
      (fun _ => ⟨0, 0, 0⟩) 1 :=
  render_frame_idempotent_replace ⟨[0], .replace, 0, 120, 100, 50⟩ [0]
    (fun _ => ⟨0, 0, 0⟩) 1 rfl

/-- C8 counterexample: under the multiplicative blend mode (saturation 0,
lightness 50, so every slot's color is (1/2, 1/2, 1/2)), rendering twice
over an all-white buffer leaves pixel 0 at 1/4 while rendering once leaves
it at 1/2 — repeated calls with unchanged counters do not produce
identical buffer contents. -/
theorem render_frame_not_idempotent_counterexample :
    fx_heatmap_render_frame ⟨[0], .multiplicative, 0, 0, 0, 50⟩ [0]
      (fx_heatmap_render_frame ⟨[0], .multiplicative, 0, 0, 0, 50⟩ [0]
        (fun _ => ⟨1, 1, 1⟩) 1) 1 0 ≠
    fx_heatmap_render_frame ⟨[0], .multiplicative, 0, 0, 0, 50⟩ [0]
      (fun _ => ⟨1, 1, 1⟩) 1 0 := by decide

/-- C9 (amended): the renderer performs no bounds check of its own, but
whenever every pixel-map entry is a valid buffer index (the configuration
invariant) it writes only inside the buffer: memory at or past
`num_pixels` is untouched. -/
theorem render_frame_stays_in_buffer (cfg : FxHeatmapConfig)
    (counts : List Nat) (mem : Nat → RGB) (numPixels : Nat)
    (hpm : ∀ p ∈ cfg.pixelMap, p < numPixels)
    (q : Nat) (hq : numPixels ≤ q) :
    fx_heatmap_render_frame cfg counts mem numPixels q = mem q := by
  unfold fx_heatmap_render_frame
  apply renderSlots_untouched
  intro i hi
  have hilen : i < cfg.pixelMap.length := List.mem_range.mp hi
  have hlt := hpm _ (getD_mem_of_lt cfg.pixelMap i hilen)
  omega

/-- Witness for the amended C9: a one-entry pixel map targeting pixel 0
leaves memory cell 3 (outside a buffer of length 1) unchanged. -/
theorem render_frame_stays_in_buffer_witness :
    fx_heatmap_render_frame ⟨[0], .replace, 0, 0, 100, 50⟩ [0]
      (fun _ => ⟨0, 0, 0⟩) 1 3 = (fun _ => (⟨0, 0, 0⟩ : RGB)) 3 :=
  render_frame_stays_in_buffer ⟨[0], .replace, 0, 0, 100, 50⟩ [0]
    (fun _ => ⟨0, 0, 0⟩) 1 (by simp) 3 (by decide)

/-- C9 counterexample: with a corrupted pixel map entry 5 and a buffer of
length 1, the renderer writes memory cell 5 — outside the buffer — rather
than skipping the out-of-range entry. -/
theorem render_frame_out_of_bounds_counterexample :
    fx_heatmap_render_frame ⟨[5], .replace, 0, 0, 100, 50⟩ [0]
      (fun _ => ⟨0, 0, 0⟩) 1 5 ≠ (⟨0, 0, 0⟩ : RGB) := by decide

end ZmkRgbFx
